import Mathlib

/-!
Verification development for the Steam hardware-survey harvesting pipeline
(src/main.py). The Python source is shallowly embedded: HTML pages are
represented by the text content the parsers actually read, percentages by
rationals, Python dictionaries by insertion-ordered association lists, and
Python exceptions by an explicit error type carried in `Except`.
-/

set_option allowUnsafeReducibility true
attribute [semireducible] Rat.inv Rat.mul Rat.add Rat.sub

/-- Python exception kinds the embedded code can raise. `typeError` covers
the runtime error Python raises when a non-exception value is raised. -/
inductive PyError where
  | typeError (msg : String)
  | fileNotFoundError (msg : String)
  | valueError (msg : String)
  | attributeError (msg : String)
deriving DecidableEq, Repr

/-- True on an error value of `Except`. -/
def exceptIsError : Except ε α → Bool
  | .error _ => true
  | .ok _ => false

/-- Python whitespace for str.strip and the regex class backslash-s. -/
def isPyWs (c : Char) : Bool :=
  c = ' ' || c = '\t' || c = '\n' || c = '\r' || c = '\x0b' || c = '\x0c'

/-- Remove the characters satisfying `p` from both ends of a character list,
as Python str.strip does. -/
def stripBoth (p : Char → Bool) (s : List Char) : List Char :=
  ((s.dropWhile p).reverse.dropWhile p).reverse

/-- Python str.strip() on a string: whitespace removed from both ends. -/
def stripStr (s : String) : String :=
  ⟨stripBoth isPyWs s.toList⟩

/-- Python str.strip(chars) on a character list: every character that occurs
in `cs` is removed from both ends. -/
def pyStripChars (cs : String) (s : List Char) : List Char :=
  stripBoth (fun c => cs.toList.contains c) s

/-- The natural number a list of decimal digit characters denotes. -/
def digitsToNat (ds : List Char) : Nat :=
  ds.foldl (fun a c => a * 10 + (c.toNat - 48)) 0

/-- Exponent part of a Python float literal: an optional sign and a
nonempty digit run. -/
def parseExpPart (s : List Char) : Option Int :=
  match s with
  | '+' :: t => if t ≠ [] ∧ t.all Char.isDigit then some (digitsToNat t) else none
  | '-' :: t => if t ≠ [] ∧ t.all Char.isDigit then some (-(digitsToNat t : Int)) else none
  | t => if t ≠ [] ∧ t.all Char.isDigit then some (digitsToNat t) else none

/-- The body of a Python float literal after an optional sign: a digit run,
an optional fractional part, an optional exponent. The special forms
(inf, nan, underscores between digits) are not modelled: no survey value
uses them. -/
def parseFloatBody (s : List Char) : Option ℚ :=
  let ip := s.takeWhile Char.isDigit
  match s.dropWhile Char.isDigit with
  | [] => if ip = [] then none else some (digitsToNat ip)
  | '.' :: t =>
    let fp := t.takeWhile Char.isDigit
    if ip = [] ∧ fp = [] then none
    else
      let mant : ℚ := (digitsToNat ip : ℚ) + (digitsToNat fp : ℚ) / 10 ^ fp.length
      match t.dropWhile Char.isDigit with
      | [] => some mant
      | 'e' :: ex => (parseExpPart ex).map (fun e => mant * 10 ^ e)
      | 'E' :: ex => (parseExpPart ex).map (fun e => mant * 10 ^ e)
      | _ => none
  | 'e' :: ex =>
    if ip = [] then none else (parseExpPart ex).map (fun e => (digitsToNat ip : ℚ) * 10 ^ e)
  | 'E' :: ex =>
    if ip = [] then none else (parseExpPart ex).map (fun e => (digitsToNat ip : ℚ) * 10 ^ e)
  | _ => none

/-- Python float(str): surrounding whitespace stripped, then an optional
sign and the literal body; `none` models the ValueError of an unparsable
string. -/
def pyFloat? (s : List Char) : Option ℚ :=
  match stripBoth isPyWs s with
  | '+' :: t => parseFloatBody t
  | '-' :: t => (parseFloatBody t).map Neg.neg
  | t => parseFloatBody t

/-- Try to match backslash-d repeated exactly `k` times, then a dot, two
digits and a percent sign, at the head of `s`; returns the matched text. -/
def percAtK (k : Nat) (s : List Char) : Option (List Char) :=
  let ds := s.take k
  if ds.length = k ∧ ds.all Char.isDigit then
    match s.drop k with
    | '.' :: d1 :: d2 :: '%' :: _ =>
      if d1.isDigit ∧ d2.isDigit then some (ds ++ ['.', d1, d2, '%']) else none
    | _ => none
  else none

/-- The core of the pattern _RE_PERC (src/main.py line 15): one to three
digits, a dot, two digits, a percent sign. The digit counter is greedy, so
three digits are tried first, then two, then one. -/
def percAt (s : List Char) : Option (List Char) :=
  match percAtK 3 s with
  | some m => some m
  | none =>
    match percAtK 2 s with
    | some m => some m
    | none => percAtK 1 s

/-- The negative lookbehind of _RE_PERC: a match may not start right after
a minus sign, a plus sign or an opening parenthesis. -/
def lookbehindBlocked : Option Char → Bool
  | some c => c = '-' || c = '+' || c = '('
  | none => false

/-- A match of _RE_PERC at one position: the lookbehind inspects the
character right before the position, then the core pattern must match. -/
def matchHere (prev : Option Char) (s : List Char) : Option (List Char) :=
  if lookbehindBlocked prev then none else percAt s

/-- re.search with _RE_PERC: scan left to right, return the first match. -/
def reSearchPerc (prev : Option Char) (s : List Char) : Option (List Char) :=
  match matchHere prev s with
  | some m => some m
  | none =>
    match s with
    | [] => none
    | c :: t => reSearchPerc (some c) t

/-- One chunk of more_itertools.grouper: the first `n` elements, padded at
the end with the fill value none. -/
def padChunk (n : Nat) (l : List α) : List (Option α) :=
  l.map some ++ List.replicate (n - l.length) none

/-- Chunking worker, structurally recursive on a fuel that bounds the
number of chunks; every step consumes at least one element, so a fuel of
the list length is always enough. -/
def grouperGo (n : Nat) : Nat → List α → List (List (Option α))
  | 0, _ => []
  | _, [] => []
  | fuel + 1, a :: rest =>
    padChunk n (a :: rest.take (n - 1)) :: grouperGo n fuel (rest.drop (n - 1))

/-- more_itertools.grouper(iterable, n, fillvalue=None): chunks of length
`n`, the last one padded with none. -/
def grouper (n : Nat) (l : List α) : List (List (Option α)) :=
  grouperGo n l.length l

/-- Lookup in an insertion-ordered association list (a Python dict). -/
def dictGet? (k : String) : List (String × α) → Option α
  | [] => none
  | (k', v) :: t => if k' = k then some v else dictGet? k t

/-- Python `k in d`. -/
def dictHas (d : List (String × α)) (k : String) : Bool :=
  (dictGet? k d).isSome

/-- Python `d[k] = v`: replace in place when the key exists, else append. -/
def dictInsert (k : String) (v : α) : List (String × α) → List (String × α)
  | [] => [(k, v)]
  | (k', v') :: t => if k' = k then (k, v) :: t else (k', v') :: dictInsert k v t

/-- The nested mapping both page parsers produce: category name to
(item label to percentage value), in insertion order. -/
abbrev DataJson := List (String × List (String × ℚ))

/-- Python `d[c][i] = v` on the nested mapping. The parsers only evaluate
this with `c` already present (otherwise Python raises KeyError). -/
def dictSetItem (d : DataJson) (c i : String) (v : ℚ) : DataJson :=
  dictInsert c (dictInsert i v ((dictGet? c d).getD [])) d

/-- Read `d[c][i]` from the nested mapping. -/
def dictGetItem? (d : DataJson) (c i : String) : Option ℚ :=
  match dictGet? c d with
  | some inner => dictGet? i inner
  | none => none

/-- A Python for loop over a list whose body may raise: the first error
stops the loop and propagates. -/
def exceptFold (f : β → α → Except ε β) : β → List α → Except ε β
  | b, [] => .ok b
  | b, a :: l =>
    match f b a with
    | .ok b' => exceptFold f b' l
    | .error e => .error e

/-! ## The modern-layout parser (src/main.py lines 115-153) -/

/-- One category of a modern-layout page, as the parser reads it: the
stripped-to-be title text found in the paired stats row, and the text of
the class-matched cell divs inside the details block, in document order. -/
structure ModernCat where
  title : String
  cells : List String
deriving DecidableEq, Repr

/-- Lines 138-152: route one parsed (item, value) pair into the mapping.
The three OS family names feed the synthetic "OS Version (total)" category;
only a "Windows" item creates it, the other two use it when it already
exists and otherwise fall back to the current category `name`. -/
def modernInsertItem (st : DataJson) (name item : String) (v : ℚ) : DataJson :=
  if item = "Windows" ∨ item = "OSX" ∨ item = "Linux" then
    if item = "Windows" then
      let st1 := if dictHas st "OS Version (total)" then st
                 else dictInsert "OS Version (total)" [] st
      dictSetItem st1 "OS Version (total)" item v
    else
      if dictHas st "OS Version (total)" then dictSetItem st "OS Version (total)" item v
      else dictSetItem st name item v
  else dictSetItem st name item v

/-- Lines 134-137: one grouped triple of cells. The item label is the
stripped left text when nonempty, else the mid text; the value is the first
_RE_PERC match in the right text, percent sign stripped, parsed as float.
A padding `none` cell raises AttributeError when its text is read, and a
right text without a match raises AttributeError on `.group(0)`. -/
def parseModernGroup (g : List (Option String)) : Except PyError (String × ℚ) :=
  match g with
  | [some l, m, r] =>
    let sl := stripStr l
    let item? : Except PyError String :=
      if sl ≠ "" then .ok sl
      else
        match m with
        | some mm => .ok (stripStr mm)
        | none => .error (.attributeError "NoneType object has no attribute text")
    match item? with
    | .error e => .error e
    | .ok item =>
      match r with
      | none => .error (.attributeError "NoneType object has no attribute text")
      | some rt =>
        match reSearchPerc none rt.toList with
        | none => .error (.attributeError "NoneType object has no attribute group")
        | some mt =>
          match pyFloat? (pyStripChars "%" mt) with
          | none => .error (.valueError "could not convert string to float")
          | some v => .ok (item, v)
  | none :: _ => .error (.attributeError "NoneType object has no attribute text")
  | _ => .error (.valueError "values to unpack mismatch")

/-- One title/details pair of the modern layout: register the category,
then fold the cells in groups of three. -/
def modernCatStep (st : DataJson) (c : ModernCat) : Except PyError DataJson :=
  let name := stripStr c.title
  exceptFold
    (fun st g =>
      match parseModernGroup g with
      | .ok iv => .ok (modernInsertItem st name iv.1 iv.2)
      | .error e => .error e)
    (dictInsert name [] st) (grouper 3 c.cells)

/-- The modern-layout page parser: categories in document order, each
initialised to an empty mapping and then filled from its cell triples. -/
def modernParser (page : List ModernCat) : Except PyError DataJson :=
  exceptFold modernCatStep [] page

/-! ## The legacy-layout parser (src/main.py lines 97-112) -/

/-- One category block of a legacy page: the bold title text and the
right-aligned table cell texts in document order. -/
structure OldCat where
  name : String
  cells : List String
deriving DecidableEq, Repr

/-- Line 106: the grouping width, 4 for the "RAM" category when the
aggregate-RAM flag is set, otherwise 3. -/
def colsFor (name : String) (agg_ram : Bool) : Nat :=
  if name = "RAM" ∧ agg_ram = true then 4 else 3

/-- Lines 107-111: one grouped run of cells (item, spacer, value, and with
width 4 a trailing aggregate cell that is dropped by `right, *_ = right`).
The value is the third cell, percent signs stripped, parsed as float. -/
def parseOldGroup (g : List (Option String)) : Except PyError (String × ℚ) :=
  match g with
  | some l :: _ :: rest =>
    let item := stripStr l
    match rest with
    | [] => .error (.valueError "not enough values to unpack")
    | r :: _ =>
      match r with
      | none => .error (.attributeError "NoneType object has no attribute text")
      | some rt =>
        match pyFloat? (pyStripChars "%" rt.toList) with
        | none => .error (.valueError "could not convert string to float")
        | some v => .ok (item, v)
  | none :: _ :: _ => .error (.attributeError "NoneType object has no attribute text")
  | _ => .error (.valueError "not enough values to unpack")

/-- One category block of the legacy layout. -/
def oldCatStep (agg_ram : Bool) (st : DataJson) (c : OldCat) : Except PyError DataJson :=
  let name := stripStr c.name
  exceptFold
    (fun st g =>
      match parseOldGroup g with
      | .ok iv => .ok (dictSetItem st name iv.1 iv.2)
      | .error e => .error e)
    (dictInsert name [] st) (grouper (colsFor name agg_ram) c.cells)

/-- The legacy-layout page parser. -/
def oldParser (cats : List OldCat) (agg_ram : Bool) : Except PyError DataJson :=
  exceptFold (oldCatStep agg_ram) [] cats

/-! ## Layout dispatch (src/main.py lines 170-175) -/

/-- Line 170: December 2008 and every later month use the modern layout. -/
def usesModernLayout (year month : Nat) : Bool :=
  if (year = 2008 ∧ month = 12) ∨ 2008 < year then true else false

/-- Line 174: the aggregate-RAM flag is set exactly for the months of 2005
after July. -/
def aggRamFor (year month : Nat) : Bool :=
  if year = 2005 ∧ 7 < month then true else false

/-! ## The snapshot resolver (src/main.py lines 19-75) -/

/-- The date components datetime.strptime yields that the code reads. -/
structure PyDate where
  year : Nat
  month : Nat
  day : Nat
deriving DecidableEq, Repr

/-- Line 33: date_code = f-string of the year and the zero-padded month. -/
def dateCodeOf (year month : Nat) : Nat :=
  year * 100 + month

/-- Lines 49 and 60: the mid-month target, the date_code with day 15
appended, read back with the format %Y%m%d (month below 100 by the
zero-padded f-string). -/
def mkPayloadTs (year month : Nat) : PyDate :=
  let digits := dateCodeOf year month * 100 + 15
  ⟨digits / 10000, digits / 100 % 100, digits % 100⟩

/-- The closest-snapshot object of the archive lookup response: its url,
its raw 14-digit timestamp text, and the timestamp as strptime with
%Y%m%d%H%M%S reads it. -/
structure SnapshotInfo where
  url : String
  tsRaw : String
  ts : PyDate
deriving DecidableEq, Repr

/-- One row of the metadata registry (columns date_code, archive_url,
file_name). -/
structure MetaRecord where
  date_code : Nat
  archive_url : Option String
  file_name : Option String
deriving DecidableEq, Repr

/-- Lines 59-67: the row appended for a resolved month. The snapshot is
kept only when its captured timestamp shares the month and the year of the
mid-month target; otherwise both url and file name stay empty. -/
def newRecord (year month : Nat) (snap : SnapshotInfo) : MetaRecord :=
  let payload_ts := mkPayloadTs year month
  if payload_ts.month = snap.ts.month ∧ payload_ts.year = snap.ts.year then
    ⟨dateCodeOf year month, some snap.url, some (snap.tsRaw ++ ".txt")⟩
  else
    ⟨dateCodeOf year month, none, none⟩

/-- Line 16: the base retry interval in seconds. -/
def _RETRY_SLEEP : Nat := 5

/-- Lines 50-55, one loop state at a time: `resp k` tells whether the k-th
request (counting the request before the loop as 0) reports an archived
snapshot. While it does not, the loop sleeps _RETRY_SLEEP * num_retry
seconds, requests again and increments num_retry. The fuel argument bounds
how many requests this finite unrolling may issue; `none` means the loop
was still running when the fuel ran out. On exit it returns the index of
the successful request and the list of sleeps performed, in order. -/
def retryGo (resp : Nat → Bool) : Nat → Nat → Nat → List Nat → Option (Nat × List Nat)
  | 0, _, _, _ => none
  | fuel + 1, num_retry, k, sleeps =>
    if resp k then some (k, sleeps)
    else retryGo resp fuel (num_retry + 1) (k + 1) (sleeps ++ [_RETRY_SLEEP * num_retry])

/-- The retry loop as entered at line 52: num_retry starts at 1, request 0
was already issued, no sleep has happened yet. -/
def retryRun (resp : Nat → Bool) (fuel : Nat) : Option (Nat × List Nat) :=
  retryGo resp fuel 1 0 []

/-! ## The normalizer (src/main.py lines 184-238) -/

/-- One month of parsed survey data as stored in the JSON report file:
the date code and the category mapping. -/
structure MonthlyReport where
  date_code : Nat
  cats : List (String × List (String × ℚ))
deriving DecidableEq, Repr

/-- One row of the final long-format table. -/
structure NormalizedRow where
  item : String
  perc : ℚ
  category : String
  date : PyDate
  platform : String
deriving DecidableEq, Repr

/-- Line 208: datetime.strptime(date_code, %Y%m), day defaulting to 1. -/
def dateOfCode (code : Nat) : PyDate :=
  ⟨code / 100, code % 100, 1⟩

/-- Chronological comparison of the parsed dates (pandas compares the
timestamps; with the embedding every timestamp is midnight, so the triple
(year, month, day) decides). -/
def dateLtB (a b : PyDate) : Bool :=
  a.year < b.year ||
    (a.year = b.year && (a.month < b.month || (a.month = b.month && a.day < b.day)))

/-- Does the category-title regex of line 216 match at position i of s:
one or more whitespace characters, an opening parenthesis, one or more
characters with the closing parenthesis not preceded by the letters
"total", a closing parenthesis, then anything up to the end of the line. -/
def stripMatchAt (s : List Char) (i : Nat) : Bool :=
  (List.range' (i + 1) s.length).any (fun p =>
    decide (s.get? p = some '(') && ((s.drop i).take (p - i)).all isPyWs &&
    (List.range' (p + 2) s.length).any (fun j =>
      decide (s.get? j = some ')') && decide (p + 1 < j) &&
      ((s.drop (p + 1)).take (j - (p + 1))).all (fun c => c != '\n') &&
      !(decide (5 ≤ j) && decide ((s.drop (j - 5)).take 5 = ['t', 'o', 't', 'a', 'l'])) &&
      (s.drop (j + 1)).all (fun c => c != '\n')))

/-- Lines 215-217: re.sub of the category title. The match is anchored to
the end by the dollar sign, so the leftmost match truncates the title
there; a title without a match is unchanged. -/
def stripParenTail (str : String) : String :=
  let s := str.toList
  match (List.range s.length).find? (fun i => stripMatchAt s i) with
  | some i => ⟨s.take i⟩
  | none => str

/-- Line 219: re.sub replacing every occurrence of the three characters
ampersand l t by the less-than sign. -/
def unescapeLt : List Char → List Char
  | '&' :: 'l' :: 't' :: rest => '<' :: unescapeLt rest
  | c :: rest => c :: unescapeLt rest
  | [] => []

/-- Line 219 applied to an item label. -/
def unescapeLtStr (s : String) : String :=
  ⟨unescapeLt s.toList⟩

/-- Lines 222-228: the category rename table. -/
def cat_rename : List (String × String) :=
  [("RAM", "System RAM"),
   ("Processor Count", "Physical CPUs"),
   ("FreeHD", "Free Hard Drive Space"),
   ("TotalHD", "Total Hard Drive Space"),
   ("DirectX10 Systems", "DirectX 10 Systems")]

/-- Line 229: pandas Series.replace with a dict renames a cell exactly when
its whole value is a key of the table. -/
def renameCat (c : String) : String :=
  match cat_rename.find? (fun p => p.1 = c) with
  | some p => p.2
  | none => c

/-- Lines 193-210: the long-format rows in construction order, before any
cleanup: one row per item of each category of each report, carrying the
parsed date and the subset as platform. -/
def rawRows (subset : String) (reports : List MonthlyReport) : List NormalizedRow :=
  reports.flatMap (fun rep =>
    rep.cats.flatMap (fun c =>
      c.2.map (fun iv =>
        { item := iv.1, perc := iv.2, category := c.1,
          date := dateOfCode rep.date_code, platform := subset })))

/-- Lines 214-235 applied to one row: strip the category title, unescape
the item label, rename the category, and for the combined subset relabel
every row before June 2010 to the pc platform. -/
def normalizeRow (subset : String) (r : NormalizedRow) : NormalizedRow :=
  let r1 := { r with category := stripParenTail r.category }
  let r2 := { r1 with item := unescapeLtStr r1.item }
  let r3 := { r2 with category := renameCat r2.category }
  if subset = "combined" ∧ dateLtB r3.date ⟨2010, 6, 1⟩ = true then
    { r3 with platform := "pc" }
  else r3

/-- Lines 193-235: build the rows and clean them. A category with no items
makes the per-category frame constructor throw (its index and data lengths
disagree), and an input with no category at all makes pd.concat throw; both
are modelled as ValueError. -/
def cleanAndNormalizeRows (subset : String) (reports : List MonthlyReport) :
    Except PyError (List NormalizedRow) :=
  if reports.all (fun rep => rep.cats.all (fun c => !c.2.isEmpty)) then
    let raw := rawRows subset reports
    if raw.isEmpty then .error (.valueError "No objects to concatenate")
    else .ok (raw.map (normalizeRow subset))
  else .error (.valueError "arrays must all be same length")

/-- Lines 184-238, clean_and_normalize: when the survey-data file for the
subset is missing, line 188 executes `raise` on a plain f-string; raising
a value that does not derive from BaseException makes Python raise
TypeError instead, so that is what the caller receives. Otherwise the
loaded reports are flattened and cleaned. -/
def clean_and_normalize (fileExists : Bool) (subset : String)
    (reports : List MonthlyReport) : Except PyError (List NormalizedRow) :=
  if fileExists then cleanAndNormalizeRows subset reports
  else .error (.typeError "exceptions must derive from BaseException")

/-- True exactly on a missing-file style error. -/
def isFileNotFound : Except PyError α → Bool
  | .error (.fileNotFoundError _) => true
  | _ => false

/-- The key the spec declares unique per output row. -/
def rowKey (r : NormalizedRow) : PyDate × String × String × String :=
  (r.date, r.platform, r.category, r.item)

/-- The cleaned (category, item) keys one report contributes. -/
def normKeysOfReport (rep : MonthlyReport) : List (String × String) :=
  rep.cats.flatMap (fun c =>
    c.2.map (fun iv => (renameCat (stripParenTail c.1), unescapeLtStr iv.1)))

deriving instance DecidableEq for Except

/-! ## Claim theorems -/

/-- C1: for every resolved month, the record appended to the registry
either comes from a snapshot whose captured timestamp shares the calendar
month and year of the mid-month target, or has both archive_url and
file_name absent (a miss). -/
theorem snapshot_month_guard (year month : Nat) (snap : SnapshotInfo) :
    ((mkPayloadTs year month).month = snap.ts.month
      ∧ (mkPayloadTs year month).year = snap.ts.year)
    ∨ ((newRecord year month snap).archive_url = none
      ∧ (newRecord year month snap).file_name = none) := by
  by_cases h : (mkPayloadTs year month).month = snap.ts.month
      ∧ (mkPayloadTs year month).year = snap.ts.year
  · exact Or.inl h
  · right
    simp [newRecord, h]

/-- C3, counterexample: March 2006 is dated after the 2005 cutoff month
(July 2005) and is parsed with the legacy layout, yet the grouping width
chosen for its "RAM" category is 3, not 4. -/
theorem ram_width_counterexample :
    usesModernLayout 2006 3 = false
    ∧ (2005 < 2006 ∨ (2006 = 2005 ∧ 7 < 3))
    ∧ colsFor "RAM" (aggRamFor 2006 3) = 3 := by
  refine ⟨rfl, Or.inl (by omega), by decide⟩

/-- C3, amended: the 4-cell grouping width is used exactly for the "RAM"
category on pages of year 2005 with month after July; every other category
and every other page uses the 3-cell width. -/
theorem ram_width_amended (year month : Nat) (name : String) :
    colsFor name (aggRamFor year month) =
      if name = "RAM" ∧ year = 2005 ∧ 7 < month then 4 else 3 := by
  unfold colsFor aggRamFor
  by_cases h1 : name = "RAM" <;> by_cases h2 : year = 2005 ∧ 7 < month <;>
    simp [h1, h2]

/-- C4: the percentage pattern finds "45.23%" in a value cell, the first
match in "45.23% (+0.12%)" is "45.23%", and no match can start right after
a plus sign, a minus sign or an opening parenthesis, so the delta marker
is never extracted as the value. -/
theorem perc_pattern_spec :
    reSearchPerc none "45.23%".toList = some "45.23%".toList
    ∧ reSearchPerc none "45.23% (+0.12%)".toList = some "45.23%".toList
    ∧ ∀ (c : Char) (s : List Char), (c = '+' ∨ c = '-' ∨ c = '(') →
        matchHere (some c) s = none := by
  refine ⟨by decide, by decide, ?_⟩
  intro c s hc
  have hb : lookbehindBlocked (some c) = true := by
    rcases hc with h | h | h <;> subst h <;> decide
  simp [matchHere, hb]

/-- C4, witness: the lookbehind part applied right after the plus sign of
a delta annotation-like text. -/
theorem perc_pattern_spec_witness : matchHere (some '+') "0.12%".toList = none :=
  perc_pattern_spec.2.2 '+' "0.12%".toList (Or.inl rfl)

/-- C5, counterexample: the rename table has exactly five entries, not
six. -/
theorem rename_table_counterexample :
    cat_rename.length = 5 ∧ ¬cat_rename.length = 6 := by
  exact ⟨rfl, by decide⟩

/-- C5, amended: the fixed rename table covers five known legacy category
names; renaming is applied cell by cell, so the cell at any position of the
output is the renaming of the cell at the same position of the input, and
in particular "RAM" always becomes "System RAM" and "Processor Count"
always becomes "Physical CPUs". -/
theorem rename_table_amended (rows : List String) (i : Nat) :
    (rows.map renameCat)[i]? = rows[i]?.map renameCat
    ∧ renameCat "RAM" = "System RAM"
    ∧ renameCat "Processor Count" = "Physical CPUs"
    ∧ cat_rename.length = 5 :=
  ⟨List.getElem?_map renameCat rows i, rfl, rfl, rfl⟩

/-- The monthly report of the C9 scenario: date code 200512, category
"RAM" with the two RAM-size items as the width-4 legacy parse stores
them. -/
def report200512 : MonthlyReport :=
  ⟨200512, [("RAM", [("&lt 1 GB", 25/2), ("1 GB", 40)])]⟩

/-- C9: normalizing the 200512 combined-variant report yields the row
(2005-12-01, "System RAM", "< 1 GB", 12.5) and the row with item "1 GB"
and value 40.0, both on platform "pc" by the pre-June-2010 override. -/
theorem end_to_end_200512 :
    clean_and_normalize true "combined" [report200512] =
      .ok [⟨"< 1 GB", 25/2, "System RAM", ⟨2005, 12, 1⟩, "pc"⟩,
           ⟨"1 GB", 40, "System RAM", ⟨2005, 12, 1⟩, "pc"⟩] := by
  decide

/-- C10: with the survey-data file missing, the normalizer raises the
TypeError produced by raising a plain string, not a file-not-found style
error. -/
theorem missing_file_type_error (subset : String) (reports : List MonthlyReport) :
    clean_and_normalize false subset reports =
      .error (.typeError "exceptions must derive from BaseException")
    ∧ isFileNotFound (clean_and_normalize false subset reports) = false :=
  ⟨rfl, rfl⟩

/-- Inserting a key makes lookup at that key yield the inserted value. -/
theorem dictGet?_dictInsert_self (k : String) (v : α) (d : List (String × α)) :
    dictGet? k (dictInsert k v d) = some v := by
  induction d with
  | nil => simp [dictInsert, dictGet?]
  | cons p t ih =>
    obtain ⟨k', v'⟩ := p
    by_cases h : k' = k
    · subst h; simp [dictInsert, dictGet?]
    · simp [dictInsert, dictGet?, h, ih]

/-- Setting a nested item makes the nested lookup yield the value. -/
theorem dictGetItem?_dictSetItem_self (d : DataJson) (c i : String) (v : ℚ) :
    dictGetItem? (dictSetItem d c i v) c i = some v := by
  unfold dictGetItem? dictSetItem
  rw [dictGet?_dictInsert_self]
  exact dictGet?_dictInsert_self i v _

/-- Setting a nested item makes its category present. -/
theorem dictHas_dictSetItem_self (d : DataJson) (c i : String) (v : ℚ) :
    dictHas (dictSetItem d c i v) c = true := by
  unfold dictHas dictSetItem
  rw [dictGet?_dictInsert_self]
  rfl

/-- C2: in the modern-layout parser, a "Windows" item always ends up in the
synthetic "OS Version (total)" category, creating it when absent; an "OSX"
or "Linux" item goes into the synthetic category exactly when it already
exists at that point of the left-to-right pass and into the current
per-version category otherwise; and on the concrete sequence
[Linux, Windows] with no pre-existing synthetic category, Linux lands in
the original category while Windows initializes the synthetic one. -/
theorem os_aggregate_tie_break :
    (∀ (st : DataJson) (name : String) (v : ℚ),
        dictHas (modernInsertItem st name "Windows" v) "OS Version (total)" = true
        ∧ dictGetItem? (modernInsertItem st name "Windows" v)
            "OS Version (total)" "Windows" = some v)
    ∧ (∀ (st : DataJson) (name item : String) (v : ℚ),
        (item = "OSX" ∨ item = "Linux") →
        (dictHas st "OS Version (total)" = true →
          modernInsertItem st name item v = dictSetItem st "OS Version (total)" item v
          ∧ dictGetItem? (modernInsertItem st name item v)
              "OS Version (total)" item = some v)
        ∧ (dictHas st "OS Version (total)" = false →
          modernInsertItem st name item v = dictSetItem st name item v
          ∧ dictGetItem? (modernInsertItem st name item v) name item = some v))
    ∧ modernParser [⟨"OS Version", ["Linux", "", "12.34%", "Windows", "", "56.78%"]⟩]
        = .ok [("OS Version", [("Linux", 617/50)]),
               ("OS Version (total)", [("Windows", 2839/50)])] := by
  refine ⟨?_, ?_, by decide⟩
  · intro st name v
    constructor
    · simp only [modernInsertItem]
      simp only [reduceIte]
      exact dictHas_dictSetItem_self _ _ _ _
    · simp only [modernInsertItem]
      simp only [reduceIte]
      exact dictGetItem?_dictSetItem_self _ _ _ _
  · intro st name item v hitem
    constructor
    · intro hhas
      have he : modernInsertItem st name item v
          = dictSetItem st "OS Version (total)" item v := by
        rcases hitem with h | h <;> subst h <;> simp [modernInsertItem, hhas]
      exact ⟨he, he ▸ dictGetItem?_dictSetItem_self _ _ _ _⟩
    · intro hhas
      have he : modernInsertItem st name item v = dictSetItem st name item v := by
        rcases hitem with h | h <;> subst h <;> simp [modernInsertItem, hhas]
      exact ⟨he, he ▸ dictGetItem?_dictSetItem_self _ _ _ _⟩

/-- C2, witness: the tie-break instantiated at the empty state with a bare
Linux item, which lands in the per-version category. -/
theorem os_aggregate_tie_break_witness :
    modernInsertItem [] "OS Version" "Linux" 1 = dictSetItem [] "OS Version" "Linux" 1
    ∧ dictGetItem? (modernInsertItem [] "OS Version" "Linux" 1) "OS Version" "Linux"
        = some 1 :=
  (os_aggregate_tie_break.2.1 [] "OS Version" "Linux" 1 (Or.inr rfl)).2 rfl

/-- If the embedded for loop finishes without raising, every element of the
list was processed successfully from some intermediate state. -/
theorem exceptFold_ok_of_mem {f : β → α → Except ε β} {l : List α} {b d : β}
    (h : exceptFold f b l = .ok d) : ∀ a ∈ l, ∃ b1 b2, f b1 a = .ok b2 := by
  induction l generalizing b with
  | nil => intro a ha; simp at ha
  | cons x t ih =>
    intro a ha
    unfold exceptFold at h
    cases hfx : f b x with
    | error e => rw [hfx] at h; exact absurd h (by simp)
    | ok b' =>
      rw [hfx] at h
      rcases List.mem_cons.mp ha with rfl | hmem
      · exact ⟨b, b', hfx⟩
      · exact ih h a hmem

/-- A modern-layout cell triple whose value cell has no percentage match
never parses successfully. -/
theorem parseModernGroup_bad (l m : Option String) (r : String)
    (hre : reSearchPerc none r.toList = none) :
    ∀ p, parseModernGroup [l, m, some r] ≠ .ok p := by
  intro p hp
  cases l with
  | none => simp [parseModernGroup] at hp
  | some ls =>
    simp only [parseModernGroup] at hp
    split at hp
    · exact absurd hp (by simp)
    · rw [hre] at hp
      exact absurd hp (by simp)

/-- A legacy-layout cell group whose value cell does not parse as a float
never parses successfully. -/
theorem parseOldGroup_bad (l m : Option String) (r : String) (t : List (Option String))
    (hf : pyFloat? (pyStripChars "%" r.toList) = none) :
    ∀ p, parseOldGroup (l :: m :: some r :: t) ≠ .ok p := by
  intro p hp
  cases l with
  | none => simp [parseOldGroup] at hp
  | some ls =>
    simp only [parseOldGroup] at hp
    rw [hf] at hp
    exact absurd hp (by simp)

/-- C7: in both layout variants, a category whose value cell text holds no
parseable percentage makes the whole-page parse fail with an error, so no
partial report mapping is returned. -/
theorem parse_fails_on_unparsable_value :
    (∀ page : List ModernCat,
      (∃ c ∈ page, ∃ g ∈ grouper 3 c.cells,
        ∃ l m r, g = [l, m, some r] ∧ reSearchPerc none r.toList = none) →
      exceptIsError (modernParser page) = true)
    ∧ (∀ (cats : List OldCat) (agg_ram : Bool),
      (∃ c ∈ cats, ∃ g ∈ grouper (colsFor (stripStr c.name) agg_ram) c.cells,
        ∃ l m r t, g = l :: m :: some r :: t
          ∧ pyFloat? (pyStripChars "%" r.toList) = none) →
      exceptIsError (oldParser cats agg_ram) = true) := by
  constructor
  · intro page ⟨c, hc, g, hg, l, m, r, hgr, hre⟩
    cases hres : modernParser page with
    | error e => rfl
    | ok d =>
      exfalso
      obtain ⟨st1, st2, hstep⟩ := exceptFold_ok_of_mem hres c hc
      unfold modernCatStep at hstep
      obtain ⟨u1, u2, hg2⟩ := exceptFold_ok_of_mem hstep g hg
      cases hpg : parseModernGroup g with
      | error e => rw [hpg] at hg2; exact absurd hg2 (by simp)
      | ok p =>
        subst hgr
        exact parseModernGroup_bad l m r hre p hpg
  · intro cats agg_ram ⟨c, hc, g, hg, l, m, r, t, hgr, hf⟩
    cases hres : oldParser cats agg_ram with
    | error e => rfl
    | ok d =>
      exfalso
      obtain ⟨st1, st2, hstep⟩ := exceptFold_ok_of_mem hres c hc
      unfold oldCatStep at hstep
      obtain ⟨u1, u2, hg2⟩ := exceptFold_ok_of_mem hstep g hg
      cases hpg : parseOldGroup g with
      | error e => rw [hpg] at hg2; exact absurd hg2 (by simp)
      | ok p =>
        subst hgr
        exact parseOldGroup_bad l m r t hf p hpg

/-- C7, witness: one modern page and one legacy page, each with a value
cell that has no parseable percentage, both failing whole. -/
theorem parse_fails_on_unparsable_value_witness :
    exceptIsError (modernParser [⟨"GPU", ["A", "B", "zz"]⟩]) = true
    ∧ exceptIsError (oldParser [⟨"CPU", ["A", "B", "zz"]⟩] false) = true := by
  constructor
  · refine parse_fails_on_unparsable_value.1 _
      ⟨⟨"GPU", ["A", "B", "zz"]⟩, by decide,
       [some "A", some "B", some "zz"], by decide,
       some "A", some "B", "zz", rfl, by decide⟩
  · refine parse_fails_on_unparsable_value.2 _ false
      ⟨⟨"CPU", ["A", "B", "zz"]⟩, by decide,
       [some "A", some "B", some "zz"], by decide,
       some "A", some "B", "zz", [], rfl, by decide⟩

/-- Invariant of the retry loop entered at request index k with num_retry
k + 1: on exit, the successful request comes at or after k, every request
from k up to it reported no snapshot, and the sleeps performed after the
entry are the base interval times k + 1, k + 2, and so on. -/
theorem retryGo_ok_spec (resp : Nat → Bool) :
    ∀ (fuel k : Nat) (sleeps : List Nat) (k' : Nat) (out : List Nat),
      retryGo resp fuel (k + 1) k sleeps = some (k', out) →
      resp k' = true ∧ k ≤ k' ∧ (∀ i, k ≤ i → i < k' → resp i = false)
      ∧ out = sleeps ++ (List.range' (k + 1) (k' - k)).map (fun n => _RETRY_SLEEP * n) := by
  intro fuel
  induction fuel with
  | zero => intro k sleeps k' out h; exact absurd h (by simp [retryGo])
  | succ n ih =>
    intro k sleeps k' out h
    unfold retryGo at h
    by_cases hr : resp k = true
    · rw [if_pos hr] at h
      obtain ⟨rfl, rfl⟩ : k = k' ∧ sleeps = out := by
        have := Option.some.inj h
        exact ⟨congrArg Prod.fst this, congrArg Prod.snd this⟩
      refine ⟨hr, Nat.le_refl k, ?_, ?_⟩
      · intro i h1 h2; omega
      · simp
    · rw [if_neg hr] at h
      obtain ⟨h1, h2, h3, h4⟩ := ih (k + 1) (sleeps ++ [_RETRY_SLEEP * (k + 1)]) k' out h
      refine ⟨h1, by omega, ?_, ?_⟩
      · intro i hi1 hi2
        rcases Nat.eq_or_lt_of_le hi1 with rfl | hlt
        · exact Bool.not_eq_true _ ▸ (by simpa using hr)
        · exact h3 i (by omega) hi2
      · rw [h4]
        have hk : k' - k = (k' - (k + 1)) + 1 := by omega
        rw [hk, List.range'_succ, List.map_cons]
        simp

/-- With a response that never reports a snapshot, the loop never exits,
whatever the fuel. -/
theorem retryGo_never (resp : Nat → Bool) (hresp : ∀ i, resp i = false) :
    ∀ (fuel num_retry k : Nat) (sleeps : List Nat),
      retryGo resp fuel num_retry k sleeps = none := by
  intro fuel
  induction fuel with
  | zero => intro num_retry k sleeps; rfl
  | succ n ih =>
    intro num_retry k sleeps
    unfold retryGo
    rw [hresp k]
    simpa using ih (num_retry + 1) (k + 1) (sleeps ++ [_RETRY_SLEEP * num_retry])

/-- With a response that reports a snapshot at request n, the loop exits
once the fuel allows reaching n. -/
theorem retryGo_exits (resp : Nat → Bool) (n : Nat) (hn : resp n = true) :
    ∀ (fuel k : Nat) (sleeps : List Nat), k ≤ n → n < k + fuel →
      ∃ r, retryGo resp fuel (k + 1) k sleeps = some r := by
  intro fuel
  induction fuel with
  | zero => intro k sleeps h1 h2; omega
  | succ m ih =>
    intro k sleeps h1 h2
    by_cases hr : resp k = true
    · exact ⟨(k, sleeps), by unfold retryGo; rw [if_pos hr]⟩
    · have hk : k ≠ n := fun e => hr (e ▸ hn)
      obtain ⟨r, hrr⟩ := ih (k + 1) (sleeps ++ [_RETRY_SLEEP * (k + 1)]) (by omega) (by omega)
      exact ⟨r, by unfold retryGo; rw [if_neg hr]; exact hrr⟩

/-- C8: when the lookup reports no archived snapshot the resolver keeps
retrying with a linearly increasing delay, the n-th retry waiting
_RETRY_SLEEP times n; the loop exits exactly at the first success, and
with a response that never succeeds it runs forever (no fuel bound makes
it return). -/
theorem retry_linear_backoff :
    (∀ (resp : Nat → Bool) (fuel k : Nat) (sleeps : List Nat),
        retryRun resp fuel = some (k, sleeps) →
        resp k = true ∧ (∀ i, i < k → resp i = false)
        ∧ sleeps = (List.range' 1 k).map (fun n => _RETRY_SLEEP * n))
    ∧ (∀ resp : Nat → Bool, (∀ i, resp i = false) →
        ∀ fuel, retryRun resp fuel = none)
    ∧ (∀ (resp : Nat → Bool) (n : Nat), resp n = true →
        ∀ fuel, n < fuel → ∃ r, retryRun resp fuel = some r) := by
  refine ⟨?_, ?_, ?_⟩
  · intro resp fuel k sleeps h
    obtain ⟨h1, _, h3, h4⟩ := retryGo_ok_spec resp fuel 0 [] k sleeps h
    refine ⟨h1, fun i hi => h3 i (Nat.zero_le i) hi, ?_⟩
    simpa using h4
  · intro resp hresp fuel
    exact retryGo_never resp hresp fuel 1 0 []
  · intro resp n hn fuel hfuel
    exact retryGo_exits resp n hn fuel 0 [] (Nat.zero_le n) (by omega)

/-- C8, witness: a response succeeding at the third request makes the loop
sleep 5 then 10 seconds and exit at index 2. -/
theorem retry_linear_backoff_witness :
    retryRun (fun i => i == 2) 5 = some (2, [5, 10])
    ∧ ((fun i : Nat => i == 2) 2 = true ∧ (∀ i, i < 2 → (fun i : Nat => i == 2) i = false)
        ∧ [5, 10] = (List.range' 1 2).map (fun n => _RETRY_SLEEP * n)) :=
  ⟨by decide, retry_linear_backoff.1 (fun i => i == 2) 5 2 [5, 10] (by decide)⟩

/-- Parsing the date code with %Y%m is injective: the code is recovered as
year times 100 plus month. -/
theorem dateOfCode_inj {a b : Nat} (h : dateOfCode a = dateOfCode b) : a = b := by
  have h1 := congrArg PyDate.year h
  have h2 := congrArg PyDate.month h
  simp only [dateOfCode] at h1 h2
  omega

/-- The category title and item label of a cleaned row do not depend on the
platform override branch. -/
theorem key3_normalizeRow (subset : String) (r : NormalizedRow) :
    ((normalizeRow subset r).date, (normalizeRow subset r).category,
      (normalizeRow subset r).item)
    = (r.date, renameCat (stripParenTail r.category), unescapeLtStr r.item) := by
  rcases Decidable.em (subset = "combined" ∧ dateLtB r.date ⟨2010, 6, 1⟩ = true) with h | h <;>
    simp [normalizeRow, h]

/-- The (date, cleaned category, cleaned item) triples of the raw rows,
report by report. -/
theorem rawRows_keys (subset : String) (reports : List MonthlyReport) :
    (rawRows subset reports).map
      (fun r => (r.date, renameCat (stripParenTail r.category), unescapeLtStr r.item))
    = reports.flatMap (fun rep =>
        (normKeysOfReport rep).map (fun q => (dateOfCode rep.date_code, q.1, q.2))) := by
  unfold rawRows normKeysOfReport
  simp only [List.map_flatMap, List.map_map]
  rfl

/-- C6, amended: provided the reports carry pairwise distinct date codes
and, within each report, the cleaned (category, item) keys are pairwise
distinct, the normalizer output contains no two rows with the same
(date, platform, category, item) key. The two provisos are forced by the
counterexample: cleanup can merge distinct raw categories (for example
"RAM" and "System RAM") or distinct raw labels onto one key. -/
theorem no_dup_keys (subset : String) (reports : List MonthlyReport)
    (out : List NormalizedRow)
    (h1 : (reports.map MonthlyReport.date_code).Nodup)
    (h2 : ∀ rep ∈ reports, (normKeysOfReport rep).Nodup)
    (h3 : clean_and_normalize true subset reports = .ok out) :
    (out.map rowKey).Nodup := by
  have h3' : cleanAndNormalizeRows subset reports = .ok out := h3
  unfold cleanAndNormalizeRows at h3'
  split at h3'
  · dsimp only at h3'
    split at h3'
    · exact absurd h3' (by simp)
    · have hout : (rawRows subset reports).map (normalizeRow subset) = out :=
        Except.ok.inj h3'
      subst hout
      refine List.Nodup.of_map
        (fun q : PyDate × String × String × String => (q.1, q.2.2.1, q.2.2.2)) ?_
      rw [List.map_map, List.map_map]
      have heq : (rawRows subset reports).map
          (((fun q : PyDate × String × String × String => (q.1, q.2.2.1, q.2.2.2))
            ∘ rowKey) ∘ normalizeRow subset)
          = (rawRows subset reports).map
            (fun r => (r.date, renameCat (stripParenTail r.category),
                       unescapeLtStr r.item)) :=
        List.map_congr_left (fun r _ => key3_normalizeRow subset r)
      rw [heq, rawRows_keys]
      refine List.nodup_flatMap.mpr ⟨?_, ?_⟩
      · intro rep hrep
        refine List.Nodup.map ?_ (h2 rep hrep)
        intro a b hab
        exact congrArg (fun q : PyDate × String × String => q.2) hab
      · refine (List.pairwise_map.mp h1).imp ?_
        intro a b hne x hxa hxb
        obtain ⟨qa, _, rfl⟩ := List.mem_map.mp hxa
        obtain ⟨qb, _, hqb⟩ := List.mem_map.mp hxb
        exact hne (dateOfCode_inj (congrArg (fun q : PyDate × String × String => q.1) hqb.symm))
  · exact absurd h3' (by simp)

/-- The well-behaved input of the C6 witness. -/
def c6Report : MonthlyReport :=
  ⟨201201, [("PC Video Card", [("ATI Radeon", 3)])]⟩

/-- The normalizer output on the C6 witness input. -/
def c6Out : List NormalizedRow :=
  [⟨"ATI Radeon", 3, "PC Video Card", ⟨2012, 1, 1⟩, "mac"⟩]

/-- C6, witness: the no-duplicate theorem applied to one concrete report
whose cleaned keys are distinct. -/
theorem no_dup_keys_witness :
    ([c6Report].map MonthlyReport.date_code).Nodup
    ∧ (∀ rep ∈ [c6Report], (normKeysOfReport rep).Nodup)
    ∧ (c6Out.map rowKey).Nodup :=
  ⟨by decide, by decide,
    no_dup_keys "mac" [c6Report] c6Out (by decide) (by decide) (by decide)⟩

/-- The duplicate-producing input of the C6 counterexample: one report
holding both a "RAM" and a "System RAM" category with the same item. -/
def dupReports : List MonthlyReport :=
  [⟨200001, [("RAM", [("1 GB", 1)]), ("System RAM", [("1 GB", 2)])]⟩]

/-- What the normalizer returns on `dupReports`. -/
def dupRows : List NormalizedRow :=
  [⟨"1 GB", 1, "System RAM", ⟨2000, 1, 1⟩, "linux"⟩,
   ⟨"1 GB", 2, "System RAM", ⟨2000, 1, 1⟩, "linux"⟩]

/-- C6, counterexample: the normalizer accepts `dupReports` and its output
carries the same (date, platform, category, item) key at two distinct
positions, because the rename maps "RAM" onto the already-present
"System RAM". -/
theorem dup_key_counterexample :
    clean_and_normalize true "linux" dupReports = .ok dupRows
    ∧ (dupRows.map rowKey)[0]? = some (⟨2000, 1, 1⟩, "linux", "System RAM", "1 GB")
    ∧ (dupRows.map rowKey)[1]? = some (⟨2000, 1, 1⟩, "linux", "System RAM", "1 GB") := by
  refine ⟨by decide, by decide, by decide⟩
